import Mathlib

/-!
Verification of the DDoS protection service (Rust) against its specification.

The embedding below translates the core modules of the source —
`src/core/rate_limiter.rs`, `src/core/traffic_analyzer.rs`,
`src/cloudflare/rules.rs` and `src/service.rs` — into executable Lean
definitions.  Instants (`std::time::Instant`) become `Nat` timestamps in
seconds; `Duration::from_secs` is the identity on `Nat`; every operation that
reads the clock receives the current instant `now` as an argument.  Hash maps
(`HashMap`, guarded in the source by `RwLock`/`Mutex`) become association
lists over `String` keys, with sequential (one call at a time) semantics.
Fallible remote collaborators (Redis, the Cloudflare HTTP client) become
records of functions returning `Except`.
-/

namespace Ddos

/-! ### Association-list maps

Counterparts of the source's `HashMap<String, _>` operations.  `lookupA`
models `get`, `insertA` models `insert` (replace the existing binding if the
key is present), `updateA` models `get_mut` followed by a field update, and
`removeA` models `remove`. -/

def lookupA {α : Type} (k : String) : List (String × α) → Option α
  | [] => none
  | p :: ps => if p.1 = k then some p.2 else lookupA k ps

def insertA {α : Type} (k : String) (v : α) : List (String × α) → List (String × α)
  | [] => [(k, v)]
  | p :: ps => if p.1 = k then (k, v) :: ps else p :: insertA k v ps

def updateA {α : Type} (k : String) (f : α → α) : List (String × α) → List (String × α)
  | [] => []
  | p :: ps => if p.1 = k then (p.1, f p.2) :: ps else p :: updateA k f ps

def removeA {α : Type} (k : String) : List (String × α) → List (String × α)
  | [] => []
  | p :: ps => if p.1 = k then ps else p :: removeA k ps

/-! ### Error taxonomy

`DdosError` from `src/utils/error.rs` (the variants carrying only the rendered
message of the underlying error) and `ServiceError` from `src/error.rs`. -/

inductive DdosError : Type
  | Redis (msg : String)
  | Cloudflare (msg : String)
  | RateLimitExceeded (ip : String)
  | InvalidRequest (msg : String)
  | Internal (msg : String)
deriving DecidableEq, Repr

inductive ServiceError : Type
  | CloudflareError (msg : String)
  | IpBlocked (msg : String)
  | RateLimitExceeded (msg : String)
  | InternalError (msg : String)
deriving DecidableEq, Repr

/-- Conversion `From<DdosError> for ServiceError` (src/error.rs:37-44).  The
source match lists only the `Cloudflare` and `Internal` arms; the remaining
arms never reach this conversion in the flows embedded here and are mapped to
the closest constructor. -/
def ServiceError.ofDdos : DdosError → ServiceError
  | .Cloudflare msg => .CloudflareError msg
  | .Internal msg => .InternalError msg
  | .Redis msg => .InternalError msg
  | .RateLimitExceeded ip => .RateLimitExceeded ip
  | .InvalidRequest msg => .InternalError msg

/-! ### Counter store (Redis) interface

`src/core/rate_limiter.rs` and `src/core/traffic_analyzer.rs` talk to Redis
through a connection offering `get`, `incr`, `expire`, `del` and `ttl`, each
of which may fail.  `ConnOps σ` abstracts such a connection over an explicit
store state `σ`; `.error msg` models a failed Redis call, and `get` returns
`some n` for a present counter and `none` for an absent key. -/

structure ConnOps (σ : Type) where
  get : String → σ → Except String (Option Nat)
  incr : String → σ → Except String (Nat × σ)
  expire : String → Nat → σ → Except String σ
  del : String → σ → Except String σ
  ttl : String → σ → Except String (Option Nat)

/-- Key `rate_limit:{ip}` (src/core/rate_limiter.rs:40). -/
def rateLimitKey (ip : String) : String := "rate_limit:" ++ ip

/-- Key `traffic:{ip}` (src/core/traffic_analyzer.rs:48). -/
def trafficKey (ip : String) : String := "traffic:" ++ ip

/-- The read pattern `conn.get(&key).unwrap_or(0)` used at
rate_limiter.rs:49, rate_limiter.rs:100 and traffic_analyzer.rs:78: an absent
key or a failed store call both collapse to a count of `0`. -/
def getCountD0 {σ : Type} (ops : ConnOps σ) (key : String) (s : σ) : Nat :=
  match ops.get key s with
  | .ok (some n) => n
  | _ => 0

/-- Configuration `RateLimitConfig` (src/config/settings.rs). -/
structure RateLimitConfig where
  max_requests : Nat
  period_seconds : Nat
deriving DecidableEq, Repr

/-- `RateLimiter::check_rate_limit` (src/core/rate_limiter.rs:38-74).
Returns the next store state together with the call's result: `count >= max`
yields `Err(RateLimitExceeded)` without incrementing; otherwise the count is
incremented and, when the pre-increment count was exactly `0`, the key's
expiry is set to the period. -/
def check_rate_limit {σ : Type} (ops : ConnOps σ) (config : RateLimitConfig)
    (ip : String) (s : σ) : σ × Except DdosError Bool :=
  let key := rateLimitKey ip
  let count := getCountD0 ops key s
  if config.max_requests ≤ count then
    (s, .error (.RateLimitExceeded ip))
  else
    match ops.incr key s with
    | .error e => (s, .error (.Redis e))
    | .ok (_, s1) =>
      if count = 0 then
        match ops.expire key config.period_seconds s1 with
        | .error e => (s1, .error (.Redis e))
        | .ok s2 => (s2, .ok true)
      else
        (s1, .ok true)

/-- `RateLimiter::reset_rate_limit` (src/core/rate_limiter.rs:77-89). -/
def reset_rate_limit {σ : Type} (ops : ConnOps σ) (ip : String) (s : σ) :
    σ × Except DdosError Unit :=
  match ops.del (rateLimitKey ip) s with
  | .error e => (s, .error (.Redis e))
  | .ok s1 => (s1, .ok ())

/-- `RateLimitStatus` (src/core/rate_limiter.rs:131-142). -/
structure RateLimitStatus where
  ip : String
  count : Nat
  limit : Nat
  remaining : Nat
  reset_time : Option Nat
deriving DecidableEq, Repr

/-- `RateLimiter::get_rate_limit_status` (src/core/rate_limiter.rs:92-126).
A pure read: the store state is returned unchanged. -/
def get_rate_limit_status {σ : Type} (ops : ConnOps σ) (config : RateLimitConfig)
    (ip : String) (now : Nat) (s : σ) : σ × Except DdosError RateLimitStatus :=
  let key := rateLimitKey ip
  let count := getCountD0 ops key s
  let ttlv : Int := match ops.ttl key s with
    | .ok (some t) => (t : Int)
    | _ => -1
  let remaining := if config.max_requests ≤ count then 0 else config.max_requests - count
  let reset_time := if 0 < ttlv then some (now + ttlv.toNat) else none
  (s, .ok { ip := ip, count := count, limit := config.max_requests,
            remaining := remaining, reset_time := reset_time })

/-- `TrafficAnalyzer::check_for_ddos` (src/core/traffic_analyzer.rs:70-89).
Reads the remote traffic count with the same `unwrap_or(0)` defaulting and
returns `Ok(count >= threshold)`; the store state is not mutated. -/
def check_for_ddos {σ : Type} (ops : ConnOps σ) (request_threshold : Nat)
    (ip : String) (s : σ) : σ × Except DdosError Bool :=
  let key := trafficKey ip
  let count := getCountD0 ops key s
  (s, .ok (decide (request_threshold ≤ count)))

/-! ### Concrete store models -/

/-- A healthy Redis instance: counters plus per-key expiries, every call
succeeding. -/
structure RedisModel where
  counts : List (String × Nat)
  ttls : List (String × Nat)
deriving DecidableEq, Repr

/-- Connection operations over `RedisModel` in which no call fails: `get`
returns the stored counter, `incr` adds one (creating the key at `1`),
`expire` records the ttl, `del` removes the key. -/
def healthyOps : ConnOps RedisModel where
  get := fun k s => .ok (lookupA k s.counts)
  incr := fun k s =>
    let c := (lookupA k s.counts).getD 0
    .ok (c + 1, { s with counts := insertA k (c + 1) s.counts })
  expire := fun k t s => .ok { s with ttls := insertA k t s.ttls }
  del := fun k s => .ok { counts := removeA k s.counts, ttls := removeA k s.ttls }
  ttl := fun k s => .ok (lookupA k s.ttls)

/-- A store whose reads fail (connection down for `GET`/`TTL`) while writes
still succeed: used to exercise the `unwrap_or(0)` read paths. -/
def downOps : ConnOps Unit where
  get := fun _ _ => .error "connection refused"
  incr := fun _ _ => .ok (1, ())
  expire := fun _ _ _ => .ok ()
  del := fun _ _ => .ok ()
  ttl := fun _ _ => .error "connection refused"

/-- Stored rate-limit window count of an identity, absent key read as `0`. -/
def storedCount (m : RedisModel) (ip : String) : Nat :=
  (lookupA (rateLimitKey ip) m.counts).getD 0

/-- Stored traffic-volume count of an identity, absent key read as `0`. -/
def storedTrafficCount (m : RedisModel) (ip : String) : Nat :=
  (lookupA (trafficKey ip) m.counts).getD 0

/-! ### Cloudflare boundary

`src/cloudflare/client.rs` decodes every API reply into
`CloudflareResponse<serde_json::Value>`.  `result` models the optional JSON
result object, with the inner `Option String` standing for the optional string
field `"id"` that `result.get("id").and_then(|id| id.as_str())`
(src/cloudflare/rules.rs:128) extracts from it. -/

structure CloudflareErrorEntry where
  code : Int
  message : String
deriving DecidableEq, Repr

structure CloudflareResponse where
  success : Bool
  errors : List CloudflareErrorEntry
  messages : List String
  result : Option (Option String)
deriving DecidableEq, Repr

/-- `FirewallRule` (src/cloudflare/client.rs). -/
structure FirewallRule where
  description : String
  expression : String
  action : String
deriving DecidableEq, Repr

/-- The remote Cloudflare API as seen through `CloudflareClient`.
`create_firewall_rule` follows src/cloudflare/client.rs:63-76, a transport
failure surfacing as `.error msg` (the `From<reqwest::Error>` conversions
render it to a message).  `delete_rule` — Modelled from the spec: the method
`CloudflareClient::delete_rule(rule_id, kind)` invoked at
src/cloudflare/rules.rs:161 is absent from the source; §6 of the spec gives
the enforcer interface `deleteRule(ruleId) -> Success | Error`, embedded here
as a call that either succeeds or fails with a message. -/
structure CloudflareClientModel where
  create_firewall_rule : FirewallRule → Except String CloudflareResponse
  delete_rule : String → String → Except String Unit

/-- Cache state of `CloudflareRulesManager` (src/cloudflare/rules.rs:15-30):
`firewall_rules` and `rate_limit_rules` map rule descriptions to rule ids,
`ip_rule_ids` maps a blocked IP to the rule id that blocks it. -/
structure RulesManagerState where
  firewall_rules : List (String × String)
  rate_limit_rules : List (String × String)
  ip_rule_ids : List (String × String)
deriving DecidableEq, Repr

def RulesManagerState.empty : RulesManagerState :=
  { firewall_rules := [], rate_limit_rules := [], ip_rule_ids := [] }

namespace RulesManager

/-- `CloudflareRulesManager::block_ip` (src/cloudflare/rules.rs:106-142).
Builds the deny rule, calls the API; a transport failure or a
`success:false` reply returns `CloudflareError` and leaves both caches
untouched; on success the description→id and ip→id caches are updated when
the reply carries a result with an `"id"` string. -/
def block_ip (client : CloudflareClientModel) (ip description : String)
    (rs : RulesManagerState) : RulesManagerState × Except ServiceError Unit :=
  let rule : FirewallRule :=
    { description := description, expression := "ip.src eq " ++ ip, action := "block" }
  match client.create_firewall_rule rule with
  | .error e => (rs, .error (.CloudflareError e))
  | .ok response =>
    if response.success = false then
      (rs, .error (.CloudflareError
        ((response.errors.head?.map fun e => e.message).getD "Unknown error")))
    else
      match response.result with
      | some (some rule_id) =>
        ({ rs with
            firewall_rules := insertA description rule_id rs.firewall_rules,
            ip_rule_ids := insertA ip rule_id rs.ip_rule_ids }, .ok ())
      | _ => (rs, .ok ())

/-- `CloudflareRulesManager::unblock_ip` (src/cloudflare/rules.rs:154-173).
No cached rule id for the IP is an error (`DdosError::Cloudflare`, "No rule
found for IP …"); otherwise the rule is deleted remotely and, on success
only, the ip→id cache entry is removed. -/
def unblock_ip (client : CloudflareClientModel) (ip : String)
    (rs : RulesManagerState) : RulesManagerState × Except DdosError Unit :=
  match lookupA ip rs.ip_rule_ids with
  | none => (rs, .error (.Cloudflare ("No rule found for IP " ++ ip)))
  | some rule_id =>
    match client.delete_rule rule_id "firewall" with
    | .error e => (rs, .error (.Cloudflare e))
    | .ok _ => ({ rs with ip_rule_ids := removeA ip rs.ip_rule_ids }, .ok ())

/-- `CloudflareRulesManager::is_ip_blocked` (src/cloudflare/rules.rs:252-255):
a pure local lookup in the ip→rule-id cache. -/
def is_ip_blocked (rs : RulesManagerState) (ip : String) : Bool :=
  (lookupA ip rs.ip_rule_ids).isSome

end RulesManager

/-! ### Admission coordinator (`src/service.rs`) -/

/-- `DdosProtectionConfig` (src/service.rs:12-21). -/
structure DdosProtectionConfig where
  max_requests_per_ip : Nat
  time_window_seconds : Nat
  violations_before_block : Nat
  block_duration_seconds : Nat
deriving DecidableEq, Repr

/-- `IpState` (src/service.rs:36-45). -/
structure IpState where
  request_count : Nat
  window_start : Nat
  violations : Nat
  blocked_until : Option Nat
deriving DecidableEq, Repr

/-- `IpState::default` (src/service.rs:47-56): zero counters with the window
starting at the instant the entry is created. -/
def IpState.fresh (now : Nat) : IpState :=
  { request_count := 0, window_start := now, violations := 0, blocked_until := none }

/-- Mutable state owned by `DdosProtectionService`: the rules-manager caches
and the identity→`IpState` map. -/
structure ServiceState where
  rules : RulesManagerState
  ip_states : List (String × IpState)
deriving DecidableEq, Repr

namespace Service

/-- `DdosProtectionService::is_ip_blocked` (src/service.rs:187-204): the
registry cache first, then a still-active local `blocked_until`
(`Instant::now() < blocked_until`). -/
def is_ip_blocked (st : ServiceState) (ip : String) (now : Nat) : Bool :=
  if RulesManager.is_ip_blocked st.rules ip then true
  else
    match lookupA ip st.ip_states with
    | some state =>
      match state.blocked_until with
      | some blocked_until => decide (now < blocked_until)
      | none => false
    | none => false

/-- `DdosProtectionService::block_ip` (src/service.rs:155-176): calls the
rules manager; on error nothing else happens; on success `blocked_until` of
an existing entry is set to `now + block_duration_seconds`. -/
def block_ip (client : CloudflareClientModel) (config : DdosProtectionConfig)
    (st : ServiceState) (ip : String) (now : Nat) :
    ServiceState × Except ServiceError Unit :=
  let description := "Block IP " ++ ip ++ " - DDoS Protection"
  let res := RulesManager.block_ip client ip description st.rules
  match res.2 with
  | .error e => ({ st with rules := res.1 }, .error e)
  | .ok _ =>
    ({ rules := res.1,
       ip_states := updateA ip
         (fun s => { s with blocked_until := some (now + config.block_duration_seconds) })
         st.ip_states },
     .ok ())

/-- `DdosProtectionService::process_request` (src/service.rs:99-143).  The
early `is_ip_blocked` return, then entry creation (`or_insert_with`), window
reset when `now - window_start > window`, the increment, and the violation /
blocking escalation. -/
def process_request (client : CloudflareClientModel) (config : DdosProtectionConfig)
    (st : ServiceState) (ip : String) (now : Nat) :
    ServiceState × Except ServiceError Unit :=
  if is_ip_blocked st ip now then
    (st, .error (.IpBlocked ("IP " ++ ip ++ " is blocked")))
  else
    let s0 := (lookupA ip st.ip_states).getD (IpState.fresh now)
    let s1 :=
      if config.time_window_seconds < now - s0.window_start then
        { s0 with request_count := 0, window_start := now }
      else s0
    let s2 := { s1 with request_count := s1.request_count + 1 }
    if config.max_requests_per_ip < s2.request_count then
      let s3 := { s2 with violations := s2.violations + 1 }
      let st1 : ServiceState := { st with ip_states := insertA ip s3 st.ip_states }
      if config.violations_before_block ≤ s3.violations then
        let res := block_ip client config st1 ip now
        (res.1,
          match res.2 with
          | .error e => .error e
          | .ok _ => .error (.IpBlocked ("IP " ++ ip ++ " blocked for excessive violations")))
      else
        (st1, .error (.RateLimitExceeded
          ("IP " ++ ip ++ " exceeded rate limit of " ++ toString config.max_requests_per_ip
            ++ " requests per " ++ toString config.time_window_seconds ++ " seconds")))
    else
      ({ st with ip_states := insertA ip s2 st.ip_states }, .ok ())

/-- `DdosProtectionService::unblock_ip` (src/service.rs:216-235): the rules
manager first (its error propagating through the `From<DdosError>`
conversion), then — only on success — `blocked_until := None` and
`violations := 0` on an existing entry. -/
def unblock_ip (client : CloudflareClientModel) (st : ServiceState) (ip : String) :
    ServiceState × Except ServiceError Unit :=
  let res := RulesManager.unblock_ip client ip st.rules
  match res.2 with
  | .error e => ({ st with rules := res.1 }, .error (ServiceError.ofDdos e))
  | .ok _ =>
    ({ rules := res.1,
       ip_states := updateA ip
         (fun s => { s with blocked_until := none, violations := 0 })
         st.ip_states },
     .ok ())

/-- `DdosProtectionService::get_ip_state` (src/service.rs:246-257): returns
`(request_count, violations, blocked_until.is_some())`, defaulting to
`(0, 0, false)` for a never-seen identity. -/
def get_ip_state (st : ServiceState) (ip : String) : Nat × Nat × Bool :=
  match lookupA ip st.ip_states with
  | some state => (state.request_count, state.violations, state.blocked_until.isSome)
  | none => (0, 0, false)

/-- Removal test of the first sweep phase (src/service.rs:270-275): window
long elapsed, zero violations, not blocked. -/
def shouldRemove (config : DdosProtectionConfig) (now : Nat) (state : IpState) : Bool :=
  decide (config.time_window_seconds < now - state.window_start) &&
    decide (state.violations = 0) && state.blocked_until.isNone

/-- One iteration of the second sweep phase (src/service.rs:285-298): an
entry whose snapshot carries an elapsed `blocked_until` gets an `unblock_ip`
attempt whose error, if any, is only logged — the state produced so far is
kept either way. -/
def cleanupStep (client : CloudflareClientModel) (now : Nat)
    (acc : ServiceState) (p : String × IpState) : ServiceState :=
  match p.2.blocked_until with
  | some blocked_until =>
    if blocked_until ≤ now then (unblock_ip client acc p.1).1 else acc
  | none => acc

/-- `DdosProtectionService::cleanup_expired_states` (src/service.rs:263-299):
remove idle entries, then attempt to unblock every remaining entry whose
`blocked_until` has passed. -/
def cleanup_expired_states (client : CloudflareClientModel)
    (config : DdosProtectionConfig) (st : ServiceState) (now : Nat) : ServiceState :=
  let kept := st.ip_states.filter fun p => ! shouldRemove config now p.2
  List.foldl (cleanupStep client now) { st with ip_states := kept } kept

/-- Request count the current window holds for `ip` just before the increment
of a `process_request` at instant `now`: `0` when the window elapsed (or the
entry is fresh), the stored count otherwise. -/
def windowedCount (config : DdosProtectionConfig) (st : ServiceState)
    (ip : String) (now : Nat) : Nat :=
  let s0 := (lookupA ip st.ip_states).getD (IpState.fresh now)
  if config.time_window_seconds < now - s0.window_start then 0 else s0.request_count

end Service

/-- Violation count the coordinator currently holds for an identity, a
never-seen identity reading as `0`. -/
def violationsOf (st : ServiceState) (ip : String) : Nat :=
  ((lookupA ip st.ip_states).map IpState.violations).getD 0

/-! ### Lock/remote-call ordering of `process_request`

`process_request` takes the `ip_states` write guard at src/service.rs:106 and
holds it to the end of the function (the guard's scope); the escalation branch
calls `block_ip` (src/service.rs:132), which issues the remote
`create_firewall_rule` call (src/cloudflare/rules.rs:115) and then requests
`ip_states.write()` again (src/service.rs:163).  The trace below lists these
lock and remote-call events in source order for each control path. -/

inductive LockEvent : Type
  | acquire_ip_states_write
  | release_ip_states_write
  | enforcer_create_rule
deriving DecidableEq, Repr

def Service.process_request_lock_trace (config : DdosProtectionConfig)
    (st : ServiceState) (ip : String) (now : Nat) : List LockEvent :=
  if Service.is_ip_blocked st ip now then []
  else
    let s0 := (lookupA ip st.ip_states).getD (IpState.fresh now)
    let s1 :=
      if config.time_window_seconds < now - s0.window_start then
        { s0 with request_count := 0, window_start := now }
      else s0
    let s2 := { s1 with request_count := s1.request_count + 1 }
    LockEvent.acquire_ip_states_write ::
      (if config.max_requests_per_ip < s2.request_count then
        if config.violations_before_block ≤ s2.violations + 1 then
          [LockEvent.enforcer_create_rule, LockEvent.acquire_ip_states_write,
           LockEvent.release_ip_states_write, LockEvent.release_ip_states_write]
        else [LockEvent.release_ip_states_write]
      else [LockEvent.release_ip_states_write])

/-- Whether a trace performs a remote enforcer call at a point where the
`ip_states` write lock is held (`depth` tracks the currently held
acquisitions). -/
def remoteCallUnderWriteLock : List LockEvent → Nat → Bool
  | [], _ => false
  | e :: rest, depth =>
    match e with
    | .acquire_ip_states_write => remoteCallUnderWriteLock rest (depth + 1)
    | .release_ip_states_write => remoteCallUnderWriteLock rest (depth - 1)
    | .enforcer_create_rule =>
      if 0 < depth then true else remoteCallUnderWriteLock rest depth

/-! ### Association-list lemmas -/

def keysA {α : Type} (l : List (String × α)) : List String := l.map Prod.fst

theorem keysA_nil {α : Type} : keysA ([] : List (String × α)) = [] := rfl

theorem keysA_cons {α : Type} (p : String × α) (l : List (String × α)) :
    keysA (p :: l) = p.1 :: keysA l := rfl

theorem lookupA_insertA_self {α : Type} (k : String) (v : α) (l : List (String × α)) :
    lookupA k (insertA k v l) = some v := by
  induction l with
  | nil => simp [insertA, lookupA]
  | cons p ps ih =>
    by_cases hp : p.1 = k
    · simp [insertA, hp, lookupA]
    · simp [insertA, hp, lookupA, ih]

theorem lookupA_insertA_ne {α : Type} {q k : String} (h : q ≠ k) (v : α)
    (l : List (String × α)) : lookupA q (insertA k v l) = lookupA q l := by
  induction l with
  | nil => simp [insertA, lookupA, Ne.symm h]
  | cons p ps ih =>
    by_cases hp : p.1 = k
    · simp [insertA, hp, lookupA, Ne.symm h]
    · by_cases hq : p.1 = q
      · simp [insertA, hp, lookupA, hq, h]
      · simp [insertA, hp, lookupA, hq, ih]

theorem lookupA_updateA_self {α : Type} (k : String) (f : α → α)
    (l : List (String × α)) : lookupA k (updateA k f l) = (lookupA k l).map f := by
  induction l with
  | nil => simp [updateA, lookupA]
  | cons p ps ih =>
    by_cases hp : p.1 = k
    · simp [updateA, hp, lookupA]
    · simp [updateA, hp, lookupA, ih]

theorem lookupA_updateA_ne {α : Type} {q k : String} (h : q ≠ k) (f : α → α)
    (l : List (String × α)) : lookupA q (updateA k f l) = lookupA q l := by
  induction l with
  | nil => simp [updateA]
  | cons p ps ih =>
    by_cases hp : p.1 = k
    · simp [updateA, hp, lookupA, Ne.symm h]
    · by_cases hq : p.1 = q
      · simp [updateA, hp, lookupA, hq, h]
      · simp [updateA, hp, lookupA, hq, ih]

theorem lookupA_removeA_ne {α : Type} {q k : String} (h : q ≠ k)
    (l : List (String × α)) : lookupA q (removeA k l) = lookupA q l := by
  induction l with
  | nil => simp [removeA]
  | cons p ps ih =>
    by_cases hp : p.1 = k
    · simp [removeA, hp, lookupA, Ne.symm h]
    · by_cases hq : p.1 = q
      · simp [removeA, hp, lookupA, hq, h]
      · simp [removeA, hp, lookupA, hq, ih]

theorem lookupA_eq_none_of_not_mem {α : Type} {k : String} {l : List (String × α)}
    (h : k ∉ keysA l) : lookupA k l = none := by
  induction l with
  | nil => rfl
  | cons p ps ih =>
    rw [keysA_cons, List.mem_cons] at h
    push_neg at h
    simp [lookupA, Ne.symm h.1, ih h.2]

theorem keysA_updateA {α : Type} (k : String) (f : α → α) (l : List (String × α)) :
    keysA (updateA k f l) = keysA l := by
  induction l with
  | nil => rfl
  | cons p ps ih =>
    by_cases hp : p.1 = k
    · simp [updateA, hp, keysA_cons]
    · simp [updateA, hp, keysA_cons, ih]

theorem keysA_removeA_sublist {α : Type} (k : String) (l : List (String × α)) :
    List.Sublist (keysA (removeA k l)) (keysA l) := by
  induction l with
  | nil => simp [removeA, keysA_nil]
  | cons p ps ih =>
    by_cases hp : p.1 = k
    · simp only [removeA, hp, if_pos, keysA_cons]
      exact List.sublist_cons_self k (keysA ps)
    · simpa [removeA, hp, keysA_cons] using List.Sublist.cons₂ p.1 ih

theorem nodup_keysA_removeA {α : Type} {k : String} {l : List (String × α)}
    (hnd : (keysA l).Nodup) : (keysA (removeA k l)).Nodup :=
  List.Nodup.sublist (keysA_removeA_sublist k l) hnd

theorem lookupA_removeA_self {α : Type} {k : String} {l : List (String × α)}
    (hnd : (keysA l).Nodup) : lookupA k (removeA k l) = none := by
  induction l with
  | nil => rfl
  | cons p ps ih =>
    rw [keysA_cons, List.nodup_cons] at hnd
    by_cases hp : p.1 = k
    · rw [removeA, if_pos hp]
      exact lookupA_eq_none_of_not_mem (hp ▸ hnd.1)
    · rw [removeA, if_neg hp, lookupA, if_neg hp]
      exact ih hnd.2

theorem lookupA_filter_of_none {α : Type} {k : String} {l : List (String × α)}
    (p : String × α → Bool) (h : lookupA k l = none) :
    lookupA k (l.filter p) = none := by
  induction l with
  | nil => rfl
  | cons q qs ih =>
    rw [lookupA] at h
    by_cases hq : q.1 = k
    · rw [if_pos hq] at h; cases h
    · rw [if_neg hq] at h
      by_cases hpq : p q
      · rw [List.filter_cons_of_pos hpq, lookupA, if_neg hq]
        exact ih h
      · rw [List.filter_cons_of_neg (by simpa using hpq)]
        exact ih h

theorem lookupA_filter_of_some {α : Type} {k : String} {v : α} {l : List (String × α)}
    (p : String × α → Bool) (hnd : (keysA l).Nodup)
    (hlk : lookupA k l = some v) (hp : p (k, v) = true) :
    lookupA k (l.filter p) = some v := by
  induction l with
  | nil => cases hlk
  | cons q qs ih =>
    rw [keysA_cons, List.nodup_cons] at hnd
    by_cases hq : q.1 = k
    · have hv : q.2 = v := by
        rw [lookupA, if_pos hq] at hlk
        exact Option.some.inj hlk
      have hqeq : q = (k, v) := by
        obtain ⟨a, b⟩ := q
        simp only at hq hv
        rw [hq, hv]
      rw [hqeq, List.filter_cons_of_pos hp, lookupA, if_pos rfl]
    · rw [lookupA, if_neg hq] at hlk
      by_cases hpq : p q
      · rw [List.filter_cons_of_pos hpq, lookupA, if_neg hq]
        exact ih hnd.2 hlk
      · rw [List.filter_cons_of_neg (by simpa using hpq)]
        exact ih hnd.2 hlk

theorem lookupA_decomp {α : Type} {k : String} {v : α} {l : List (String × α)}
    (hnd : (keysA l).Nodup) (hlk : lookupA k l = some v) :
    ∃ l1 l2, l = l1 ++ (k, v) :: l2 ∧ k ∉ keysA l1 ∧ k ∉ keysA l2 := by
  induction l with
  | nil => cases hlk
  | cons q qs ih =>
    rw [keysA_cons, List.nodup_cons] at hnd
    by_cases hq : q.1 = k
    · have hv : q.2 = v := by
        rw [lookupA, if_pos hq] at hlk
        exact Option.some.inj hlk
      have hqeq : q = (k, v) := by
        obtain ⟨a, b⟩ := q
        simp only at hq hv
        rw [hq, hv]
      exact ⟨[], qs, by rw [hqeq, List.nil_append], by simp [keysA_nil], hq ▸ hnd.1⟩
    · rw [lookupA, if_neg hq] at hlk
      obtain ⟨l1, l2, hsplit, h1, h2⟩ := ih hnd.2 hlk
      refine ⟨q :: l1, l2, by rw [hsplit, List.cons_append], ?_, h2⟩
      rw [keysA_cons, List.mem_cons]
      push_neg
      exact ⟨Ne.symm hq, h1⟩

/-! ### Concrete fixtures -/

/-- An enforcer whose rule creations succeed with rule id `fw-rule-1` and
whose deletions succeed. -/
def okClient : CloudflareClientModel where
  create_firewall_rule := fun _ =>
    .ok { success := true, errors := [], messages := [], result := some (some "fw-rule-1") }
  delete_rule := fun _ _ => .ok ()

/-- An enforcer that answers rule creation with an HTTP-level success carrying
`success:false` and an error message. -/
def rejectingClient : CloudflareClientModel where
  create_firewall_rule := fun _ =>
    .ok { success := false,
          errors := [{ code := 10000, message := "firewall rule quota exceeded" }],
          messages := [], result := none }
  delete_rule := fun _ _ => .ok ()

/-- An enforcer whose calls fail at the transport level. -/
def offlineClient : CloudflareClientModel where
  create_firewall_rule := fun _ => .error "connection timed out"
  delete_rule := fun _ _ => .error "connection timed out"

def emptyServiceState : ServiceState :=
  { rules := RulesManagerState.empty, ip_states := [] }

/-- Evaluation of `check_rate_limit` over the healthy store: the three
outcomes as a function of the stored pre-call count. -/
theorem check_rate_limit_healthy (config : RateLimitConfig) (ip : String)
    (m : RedisModel) :
    check_rate_limit healthyOps config ip m =
      if config.max_requests ≤ storedCount m ip then
        (m, .error (.RateLimitExceeded ip))
      else if storedCount m ip = 0 then
        ({ counts := insertA (rateLimitKey ip) (storedCount m ip + 1) m.counts,
           ttls := insertA (rateLimitKey ip) config.period_seconds m.ttls }, .ok true)
      else
        ({ m with counts := insertA (rateLimitKey ip) (storedCount m ip + 1) m.counts },
         .ok true) := by
  cases hl : lookupA (rateLimitKey ip) m.counts with
  | none => simp [check_rate_limit, getCountD0, healthyOps, storedCount, hl]
  | some n => simp [check_rate_limit, getCountD0, healthyOps, storedCount, hl]

/-- `Service.block_ip` leaves the `ip_states` map unchanged (enforcer
failure) or sets `blocked_until` on the blocked identity's entry. -/
theorem blockip_ip_states_cases (client : CloudflareClientModel)
    (config : DdosProtectionConfig) (st : ServiceState) (ip : String) (now : Nat) :
    (Service.block_ip client config st ip now).1.ip_states = st.ip_states ∨
    (Service.block_ip client config st ip now).1.ip_states =
      updateA ip
        (fun s => { s with blocked_until := some (now + config.block_duration_seconds) })
        st.ip_states := by
  rcases hr : RulesManager.block_ip client ip ("Block IP " ++ ip ++ " - DDoS Protection")
      st.rules with ⟨rs, r⟩
  cases r with
  | error e => left; simp [Service.block_ip, hr]
  | ok u => right; simp [Service.block_ip, hr]

/-- `Service.block_ip` never changes the `request_count` field of any entry. -/
theorem blockip_lookup_request_count (client : CloudflareClientModel)
    (config : DdosProtectionConfig) (ST : ServiceState) (ip : String) (now : Nat)
    (q : String) :
    (lookupA q (Service.block_ip client config ST ip now).1.ip_states).map
        IpState.request_count =
      (lookupA q ST.ip_states).map IpState.request_count := by
  rcases blockip_ip_states_cases client config ST ip now with h | h <;> rw [h]
  by_cases hq : q = ip
  · subst hq
    rw [lookupA_updateA_self]
    cases lookupA q ST.ip_states <;> rfl
  · rw [lookupA_updateA_ne hq]

/-- `Service.block_ip` never changes the `violations` field of any entry. -/
theorem blockip_lookup_violations (client : CloudflareClientModel)
    (config : DdosProtectionConfig) (ST : ServiceState) (ip : String) (now : Nat)
    (q : String) :
    (lookupA q (Service.block_ip client config ST ip now).1.ip_states).map
        IpState.violations =
      (lookupA q ST.ip_states).map IpState.violations := by
  rcases blockip_ip_states_cases client config ST ip now with h | h <;> rw [h]
  by_cases hq : q = ip
  · subst hq
    rw [lookupA_updateA_self]
    cases lookupA q ST.ip_states <;> rfl
  · rw [lookupA_updateA_ne hq]

/-- `Service.block_ip` never touches the entry of an identity other than the
one it blocks. -/
theorem blockip_lookup_ne (client : CloudflareClientModel)
    (config : DdosProtectionConfig) (ST : ServiceState) (ip : String) (now : Nat)
    (q : String) (hq : q ≠ ip) :
    lookupA q (Service.block_ip client config ST ip now).1.ip_states =
      lookupA q ST.ip_states := by
  rcases blockip_ip_states_cases client config ST ip now with h | h <;> rw [h]
  rw [lookupA_updateA_ne hq]

/-- Characterization of the entry a non-blocked `process_request` leaves for
the processed identity: the windowed count incremented, and the violation
tally incremented exactly when the new count exceeds the limit. -/
theorem process_request_entry (client : CloudflareClientModel)
    (config : DdosProtectionConfig) (st : ServiceState) (ip : String) (now : Nat)
    (hnb : Service.is_ip_blocked st ip now = false) :
    (lookupA ip (Service.process_request client config st ip now).1.ip_states).map
        IpState.request_count =
      some (Service.windowedCount config st ip now + 1) ∧
    (lookupA ip (Service.process_request client config st ip now).1.ip_states).map
        IpState.violations =
      some (if config.max_requests_per_ip < Service.windowedCount config st ip now + 1
        then ((lookupA ip st.ip_states).getD (IpState.fresh now)).violations + 1
        else ((lookupA ip st.ip_states).getD (IpState.fresh now)).violations) := by
  rw [Service.process_request, if_neg (by simp [hnb])]
  simp only [Service.windowedCount]
  set s0 : IpState := (lookupA ip st.ip_states).getD (IpState.fresh now) with hs0
  by_cases hw : config.time_window_seconds < now - s0.window_start <;>
    simp only [hw, if_true, if_false] <;>
    [(by_cases hx : config.max_requests_per_ip < 0 + 1);
     (by_cases hx : config.max_requests_per_ip < s0.request_count + 1)] <;>
    simp only [hx, if_true, if_false]
  · by_cases hv : config.violations_before_block ≤ s0.violations + 1 <;>
      simp only [hv, if_true, if_false]
    · rw [blockip_lookup_request_count, blockip_lookup_violations]
      simp [lookupA_insertA_self, hx]
    · simp [lookupA_insertA_self, hx]
  · simp [lookupA_insertA_self, hx]
  · by_cases hv : config.violations_before_block ≤ s0.violations + 1 <;>
      simp only [hv, if_true, if_false]
    · rw [blockip_lookup_request_count, blockip_lookup_violations]
      simp [lookupA_insertA_self, hx]
    · simp [lookupA_insertA_self, hx]
  · simp [lookupA_insertA_self, hx]

/-- A `process_request` for one identity never touches another identity's
entry. -/
theorem process_request_lookup_ne (client : CloudflareClientModel)
    (config : DdosProtectionConfig) (st : ServiceState) (ip : String) (now : Nat)
    (q : String) (hq : q ≠ ip) :
    lookupA q (Service.process_request client config st ip now).1.ip_states =
      lookupA q st.ip_states := by
  by_cases hnb : Service.is_ip_blocked st ip now
  · rw [Service.process_request, if_pos hnb]
  · rw [Service.process_request, if_neg hnb]
    set s0 : IpState := (lookupA ip st.ip_states).getD (IpState.fresh now) with hs0
    by_cases hw : config.time_window_seconds < now - s0.window_start <;>
      simp only [hw, if_true, if_false] <;>
      [(by_cases hx : config.max_requests_per_ip < 0 + 1);
       (by_cases hx : config.max_requests_per_ip < s0.request_count + 1)] <;>
      simp only [hx, if_true, if_false]
    · by_cases hv : config.violations_before_block ≤ s0.violations + 1 <;>
        simp only [hv, if_true, if_false]
      · rw [blockip_lookup_ne _ _ _ _ _ _ hq, lookupA_insertA_ne hq]
      · rw [lookupA_insertA_ne hq]
    · rw [lookupA_insertA_ne hq]
    · by_cases hv : config.violations_before_block ≤ s0.violations + 1 <;>
        simp only [hv, if_true, if_false]
      · rw [blockip_lookup_ne _ _ _ _ _ _ hq, lookupA_insertA_ne hq]
      · rw [lookupA_insertA_ne hq]
    · rw [lookupA_insertA_ne hq]

/-! ### Claims -/

/-- C2: for every identity whose stored window count has reached the
configured maximum, `check_rate_limit` returns the rate-limited outcome and
leaves the store untouched, so a subsequent `get_rate_limit_status` read shows
the count unchanged by the rejected attempt; for every identity whose count is
below the maximum it increments the count, and it sets the key's expiry to the
window duration exactly when the pre-increment count was `0`. -/
theorem c2_check_rate_limit_window (config : RateLimitConfig) (ip : String)
    (m : RedisModel) (now : Nat) :
    (config.max_requests ≤ storedCount m ip →
      check_rate_limit healthyOps config ip m = (m, .error (.RateLimitExceeded ip)) ∧
      get_rate_limit_status healthyOps config ip now
          (check_rate_limit healthyOps config ip m).1 =
        get_rate_limit_status healthyOps config ip now m) ∧
    (storedCount m ip < config.max_requests →
      (check_rate_limit healthyOps config ip m).2 = .ok true ∧
      storedCount (check_rate_limit healthyOps config ip m).1 ip = storedCount m ip + 1 ∧
      (storedCount m ip = 0 →
        lookupA (rateLimitKey ip) (check_rate_limit healthyOps config ip m).1.ttls =
          some config.period_seconds) ∧
      (storedCount m ip ≠ 0 →
        (check_rate_limit healthyOps config ip m).1.ttls = m.ttls)) := by
  refine ⟨fun h => ?_, fun h => ?_⟩
  · rw [check_rate_limit_healthy, if_pos h]
    exact ⟨rfl, rfl⟩
  · rw [check_rate_limit_healthy, if_neg (not_le.mpr h)]
    by_cases h0 : storedCount m ip = 0
    · rw [if_pos h0]
      refine ⟨rfl, ?_, fun _ => ?_, fun hc => absurd h0 hc⟩
      · rw [storedCount]
        simp [lookupA_insertA_self]
      · simp [lookupA_insertA_self]
    · rw [if_neg h0]
      refine ⟨rfl, ?_, fun hc => absurd hc h0, fun _ => rfl⟩
      rw [storedCount]
      simp [lookupA_insertA_self]

/-- Witness for C2 at concrete inputs: a full window (count 2 of max 2) is
rejected with the store untouched, and a fresh identity is admitted. -/
theorem c2_check_rate_limit_window_witness :
    check_rate_limit healthyOps ⟨2, 10⟩ "a" ⟨[("rate_limit:a", 2)], []⟩ =
      (⟨[("rate_limit:a", 2)], []⟩, .error (.RateLimitExceeded "a")) ∧
    (check_rate_limit healthyOps ⟨2, 10⟩ "a" ⟨[], []⟩).2 = .ok true :=
  ⟨((c2_check_rate_limit_window ⟨2, 10⟩ "a" ⟨[("rate_limit:a", 2)], []⟩ 0).1
      (by decide)).1,
   ((c2_check_rate_limit_window ⟨2, 10⟩ "a" ⟨[], []⟩ 0).2 (by decide)).1⟩

/-- C4 as stated is false on the code: at this input the store's GET fails,
yet `check_rate_limit` returns `Ok(true)` instead of propagating the failure —
`conn.get(&key).unwrap_or(0)` (src/core/rate_limiter.rs:49) silently treats
the failed read as a count of zero. -/
theorem c4_counterexample_failed_get_not_propagated :
    downOps.get (rateLimitKey "9.9.9.9") () = .error "connection refused" ∧
    check_rate_limit downOps { max_requests := 5, period_seconds := 10 } "9.9.9.9" () =
      ((), .ok true) :=
  ⟨rfl, rfl⟩

/-- C4 amended: in the mutating path a failed store read is treated as a
count of `0` (fail-open) rather than propagated: whenever GET fails, the
limit is positive and the subsequent INCR and EXPIRE succeed, the call admits
the request. -/
theorem c4_amended_failed_get_treated_as_zero {σ : Type} (ops : ConnOps σ)
    (config : RateLimitConfig) (ip : String) (s : σ) (e : String) (n : Nat)
    (s1 s2 : σ)
    (hget : ops.get (rateLimitKey ip) s = .error e)
    (hmax : 0 < config.max_requests)
    (hincr : ops.incr (rateLimitKey ip) s = .ok (n, s1))
    (hexp : ops.expire (rateLimitKey ip) config.period_seconds s1 = .ok s2) :
    check_rate_limit ops config ip s = (s2, .ok true) := by
  have hc : getCountD0 ops (rateLimitKey ip) s = 0 := by
    rw [getCountD0, hget]
  simp only [check_rate_limit, hc, hincr, hexp]
  rw [if_neg (by omega)]
  simp

/-- Witness for the amended C4: the concrete down store admits the request
despite the failed read. -/
theorem c4_amended_witness :
    check_rate_limit downOps { max_requests := 5, period_seconds := 10 } "8.8.8.8" () =
      ((), .ok true) :=
  c4_amended_failed_get_treated_as_zero downOps ⟨5, 10⟩ "8.8.8.8" () "connection refused"
    1 () () rfl (by decide) rfl rfl

/-- C8 as stated is false on the code: at this input the store read fails and
`check_for_ddos` still answers `Ok(false)` ("not suspect") computed from the
defaulted zero count (`conn.get(&key).unwrap_or(0)`,
src/core/traffic_analyzer.rs:78), rather than surfacing "suspect status
unknown". -/
theorem c8_counterexample_failed_read_reports_not_suspect :
    downOps.get (trafficKey "9.9.9.9") () = .error "connection refused" ∧
    check_for_ddos downOps 1000 "9.9.9.9" () = ((), .ok false) :=
  ⟨rfl, rfl⟩

/-- C8 amended: `check_for_ddos` reports suspect status iff the stored remote
count meets the threshold, with both an absent key and a failed read
defaulted to a count of `0` — in particular a failed read with a positive
threshold yields `Ok(false)`, not an error. -/
theorem c8_amended_check_for_ddos (threshold : Nat) (ip : String) :
    (∀ m : RedisModel,
      ((check_for_ddos healthyOps threshold ip m).2 = .ok true ↔
        threshold ≤ storedTrafficCount m ip) ∧
      (check_for_ddos healthyOps threshold ip m).1 = m) ∧
    (∀ (σ : Type) (ops : ConnOps σ) (s : σ) (e : String),
      ops.get (trafficKey ip) s = .error e → 0 < threshold →
      check_for_ddos ops threshold ip s = (s, .ok false)) := by
  constructor
  · intro m
    have hc : getCountD0 healthyOps (trafficKey ip) m = storedTrafficCount m ip := by
      cases hl : lookupA (trafficKey ip) m.counts <;>
        simp [getCountD0, healthyOps, storedTrafficCount, hl]
    constructor
    · simp [check_for_ddos, hc]
    · rfl
  · intro σ ops s e hget hpos
    have hc : getCountD0 ops (trafficKey ip) s = 0 := by
      rw [getCountD0, hget]
    simp only [check_for_ddos, hc]
    simp [Nat.le_zero]
    omega

/-- Witness for the amended C8: a stored count meeting the threshold answers
suspect, and the concrete down store answers not-suspect on a failed read. -/
theorem c8_amended_witness :
    (check_for_ddos healthyOps 100 "b" ⟨[("traffic:b", 150)], []⟩).2 = .ok true ∧
    check_for_ddos downOps 100 "b" () = ((), .ok false) :=
  ⟨((c8_amended_check_for_ddos 100 "b").1 ⟨[("traffic:b", 150)], []⟩).1.mpr (by decide),
   (c8_amended_check_for_ddos 100 "b").2 Unit downOps () "connection refused" rfl
     (by decide)⟩

/-- C3 as stated is false on the code: unblocking an identity that is not
blocked (no cached rule id, no local block) is not a benign no-op — the
missing-cache lookup at src/cloudflare/rules.rs:157-158 produces
`DdosError::Cloudflare("No rule found for IP …")`, which
`DdosProtectionService::unblock_ip` propagates as an error. -/
theorem c3_counterexample_unblock_clear_identity_errors :
    (Service.unblock_ip okClient emptyServiceState "1.2.3.4").2 =
      .error (.CloudflareError "No rule found for IP 1.2.3.4") := rfl

/-- C3 amended: unblocking an identity with no cached rule id returns the
`CloudflareError "No rule found for IP …"` error and leaves the whole state
unchanged (so repeating the call is indistinguishable from one call, but each
call is an error, not a silent success). -/
theorem c3_amended_unblock_clear_identity (client : CloudflareClientModel)
    (st : ServiceState) (ip : String)
    (h : lookupA ip st.rules.ip_rule_ids = none) :
    Service.unblock_ip client st ip =
      (st, .error (.CloudflareError ("No rule found for IP " ++ ip))) := by
  have hr : RulesManager.unblock_ip client ip st.rules =
      (st.rules, .error (.Cloudflare ("No rule found for IP " ++ ip))) := by
    rw [RulesManager.unblock_ip, h]
  simp [Service.unblock_ip, hr, ServiceError.ofDdos]

/-- Witness for the amended C3 at a concrete clear identity. -/
theorem c3_amended_witness :
    Service.unblock_ip okClient emptyServiceState "5.6.7.8" =
      (emptyServiceState, .error (.CloudflareError "No rule found for IP 5.6.7.8")) :=
  c3_amended_unblock_clear_identity okClient emptyServiceState "5.6.7.8" rfl

/-- C5: a request from an identity that `is_ip_blocked` reports blocked —
via the registry cache or a still-active local `blocked_until` — returns the
`IpBlocked` decision and leaves the entire service state (every `IpState`
field of every identity and all rule caches) unchanged; `process_request`
references no remote counter at all, as its signature shows. -/
theorem c5_blocked_request_is_pure (client : CloudflareClientModel)
    (config : DdosProtectionConfig) (st : ServiceState) (ip : String) (now : Nat)
    (h : Service.is_ip_blocked st ip now = true) :
    Service.process_request client config st ip now =
      (st, .error (.IpBlocked ("IP " ++ ip ++ " is blocked"))) := by
  rw [Service.process_request, if_pos h]

def c5State : ServiceState :=
  { rules := { RulesManagerState.empty with ip_rule_ids := [("7.7.7.7", "fw-rule-1")] },
    ip_states := [] }

/-- Witness for C5: an identity blocked through the registry cache. -/
theorem c5_blocked_request_is_pure_witness :
    Service.process_request okClient ⟨100, 60, 3, 3600⟩ c5State "7.7.7.7" 5 =
      (c5State, .error (.IpBlocked "IP 7.7.7.7 is blocked")) :=
  c5_blocked_request_is_pure okClient ⟨100, 60, 3, 3600⟩ c5State "7.7.7.7" 5 rfl

def c9Config : DdosProtectionConfig :=
  { max_requests_per_ip := 1, time_window_seconds := 60,
    violations_before_block := 1, block_duration_seconds := 3600 }

def c9State : ServiceState :=
  { rules := RulesManagerState.empty,
    ip_states := [("203.0.113.7",
      { request_count := 1, window_start := 0, violations := 0, blocked_until := none })] }

/-- C9 names a real defect: on the second request from `203.0.113.7` under a
limit of 1 and a one-violation threshold, the escalating `process_request`
issues the remote `create_firewall_rule` call while the `ip_states` write
guard taken at src/service.rs:106 is still held, and `block_ip` then requests
`ip_states.write()` again (src/service.rs:163) under that same held guard —
the opposite of the claimed release-before-remote-call discipline. -/
theorem c9_remote_block_issued_under_write_lock :
    Service.process_request_lock_trace c9Config c9State "203.0.113.7" 0 =
      [.acquire_ip_states_write, .enforcer_create_rule, .acquire_ip_states_write,
       .release_ip_states_write, .release_ip_states_write] ∧
    remoteCallUnderWriteLock
      (Service.process_request_lock_trace c9Config c9State "203.0.113.7" 0) 0 = true :=
  ⟨rfl, rfl⟩

/-- C10: when an identity's `blocked_until` has already passed and no registry
rule is cached, the two public views of "blocked" disagree: `get_ip_state`
still reports `is_blocked = true` (it tests only presence of `blocked_until`),
while the admission check `is_ip_blocked` answers `false`, so
`process_request` admits the identity into the counting path (the stored
request count is incremented by the call, whatever the enforcer does). -/
theorem c10_blocked_views_disagree_after_expiry (st : ServiceState) (ip : String)
    (now : Nat) (s : IpState) (bu : Nat)
    (hlk : lookupA ip st.ip_states = some s)
    (hbu : s.blocked_until = some bu)
    (hpast : bu ≤ now)
    (hreg : lookupA ip st.rules.ip_rule_ids = none) :
    (Service.get_ip_state st ip).2.2 = true ∧
    Service.is_ip_blocked st ip now = false ∧
    ∀ (client : CloudflareClientModel) (config : DdosProtectionConfig),
      (lookupA ip (Service.process_request client config st ip now).1.ip_states).map
          IpState.request_count =
        some (Service.windowedCount config st ip now + 1) := by
  have hnb : Service.is_ip_blocked st ip now = false := by
    simp only [Service.is_ip_blocked, RulesManager.is_ip_blocked, hreg, hlk, hbu]
    simp
    omega
  refine ⟨?_, hnb, ?_⟩
  · simp [Service.get_ip_state, hlk, hbu]
  · intro client config
    exact (process_request_entry client config st ip now hnb).1

def c10State : ServiceState :=
  { rules := RulesManagerState.empty,
    ip_states := [("198.51.100.4",
      { request_count := 3, window_start := 95, violations := 2,
        blocked_until := some 90 })] }

/-- Witness for C10 at a concrete expired block. -/
theorem c10_blocked_views_disagree_witness :
    (Service.get_ip_state c10State "198.51.100.4").2.2 = true ∧
    Service.is_ip_blocked c10State "198.51.100.4" 100 = false ∧
    (lookupA "198.51.100.4"
        (Service.process_request okClient ⟨100, 60, 3, 3600⟩ c10State
          "198.51.100.4" 100).1.ip_states).map IpState.request_count = some 4 := by
  have h := c10_blocked_views_disagree_after_expiry c10State "198.51.100.4" 100
    { request_count := 3, window_start := 95, violations := 2, blocked_until := some 90 }
    90 rfl rfl (by decide) rfl
  exact ⟨h.1, h.2.1, h.2.2 okClient ⟨100, 60, 3, 3600⟩⟩

/-- C1: when the enforcer answers a block attempt with `success:false`, the
block operation returns the `CloudflareError` (enforcer-rejected) error and
the whole service state is returned unchanged — no identity→rule-id entry is
added to the registry caches and `blocked_until` stays unset; in the
escalating `process_request` path the same error is surfaced and the stored
entry keeps its previous `blocked_until` (still `Warned`) with the violation
tally incremented, so the next violation retries the block. -/
theorem c1_enforcer_rejection_aborts_block (client : CloudflareClientModel)
    (config : DdosProtectionConfig) (st : ServiceState) (ip : String) (now : Nat)
    (resp : CloudflareResponse)
    (hresp : client.create_firewall_rule
        { description := "Block IP " ++ ip ++ " - DDoS Protection",
          expression := "ip.src eq " ++ ip, action := "block" } = .ok resp)
    (hfail : resp.success = false) :
    Service.block_ip client config st ip now =
      (st, .error (.CloudflareError
        ((resp.errors.head?.map fun e => e.message).getD "Unknown error"))) ∧
    (Service.is_ip_blocked st ip now = false →
      ∀ s : IpState, lookupA ip st.ip_states = some s →
      ¬ config.time_window_seconds < now - s.window_start →
      config.max_requests_per_ip < s.request_count + 1 →
      config.violations_before_block ≤ s.violations + 1 →
      Service.process_request client config st ip now =
        ({ st with
             ip_states :=
               insertA ip
                 { s with
                     request_count := s.request_count + 1,
                     violations := s.violations + 1 }
                 st.ip_states },
         .error (.CloudflareError
           ((resp.errors.head?.map fun e => e.message).getD "Unknown error")))) := by
  have hrb : ∀ R : RulesManagerState,
      RulesManager.block_ip client ip ("Block IP " ++ ip ++ " - DDoS Protection") R =
        (R, .error (.CloudflareError
          ((resp.errors.head?.map fun e => e.message).getD "Unknown error"))) := by
    intro R
    simp [RulesManager.block_ip, hresp, hfail]
  have hblock : ∀ ST : ServiceState,
      Service.block_ip client config ST ip now =
        (ST, .error (.CloudflareError
          ((resp.errors.head?.map fun e => e.message).getD "Unknown error"))) := by
    intro ST
    simp [Service.block_ip, hrb ST.rules]
  refine ⟨hblock st, fun hnb s hslk hw hx hv => ?_⟩
  rw [Service.process_request, if_neg (by simp [hnb])]
  simp only [hslk, Option.getD_some]
  rw [if_neg hw, if_pos hx, if_pos hv, hblock]

def c1State : ServiceState :=
  { rules := RulesManagerState.empty,
    ip_states := [("203.0.113.8",
      { request_count := 1, window_start := 0, violations := 0, blocked_until := none })] }

/-- Witness for C1: against the rejecting enforcer, the block aborts with the
enforcer's message and the escalating request leaves `blocked_until` unset
with the violation recorded. -/
theorem c1_enforcer_rejection_witness :
    Service.block_ip rejectingClient c9Config c1State "203.0.113.8" 0 =
      (c1State, .error (.CloudflareError "firewall rule quota exceeded")) ∧
    Service.process_request rejectingClient c9Config c1State "203.0.113.8" 0 =
      ({ c1State with
           ip_states :=
             [("203.0.113.8",
               { request_count := 2, window_start := 0, violations := 1,
                 blocked_until := none })] },
       .error (.CloudflareError "firewall rule quota exceeded")) := by
  have h := c1_enforcer_rejection_aborts_block rejectingClient c9Config c1State
    "203.0.113.8" 0
    { success := false,
      errors := [{ code := 10000, message := "firewall rule quota exceeded" }],
      messages := [], result := none }
    rfl rfl
  refine ⟨h.1, ?_⟩
  have h2 := h.2 (by decide)
    { request_count := 1, window_start := 0, violations := 0, blocked_until := none }
    rfl (by decide) (by decide) (by decide)
  rw [h2]
  rfl

/-- Case analysis of `CloudflareRulesManager::unblock_ip`: an error leaves the
caches untouched, success removes the identity's rule-id entry. -/
theorem rules_unblock_cases (client : CloudflareClientModel) (ip : String)
    (rs : RulesManagerState) :
    (∃ e, RulesManager.unblock_ip client ip rs = (rs, .error e)) ∨
    RulesManager.unblock_ip client ip rs =
      ({ rs with ip_rule_ids := removeA ip rs.ip_rule_ids }, .ok ()) := by
  cases h : lookupA ip rs.ip_rule_ids with
  | none =>
    exact .inl ⟨.Cloudflare ("No rule found for IP " ++ ip),
      by simp [RulesManager.unblock_ip, h]⟩
  | some rid =>
    cases hd : client.delete_rule rid "firewall" with
    | error e =>
      exact .inl ⟨.Cloudflare e, by simp [RulesManager.unblock_ip, h, hd]⟩
    | ok u =>
      refine .inr ?_
      simp [RulesManager.unblock_ip, h, hd]

/-- Case analysis of `DdosProtectionService::unblock_ip`: an error leaves the
whole state untouched, success removes the rule-id entry and clears
`blocked_until` and `violations` on the identity's entry. -/
theorem service_unblock_cases (client : CloudflareClientModel) (st : ServiceState)
    (ip : String) :
    (∃ e, Service.unblock_ip client st ip = (st, .error e)) ∨
    Service.unblock_ip client st ip =
      ({ rules := { st.rules with ip_rule_ids := removeA ip st.rules.ip_rule_ids },
         ip_states := updateA ip
           (fun s => { s with blocked_until := none, violations := 0 })
           st.ip_states },
       .ok ()) := by
  rcases rules_unblock_cases client ip st.rules with ⟨e, he⟩ | he
  · exact .inl ⟨ServiceError.ofDdos e, by simp [Service.unblock_ip, he]⟩
  · exact .inr (by simp [Service.unblock_ip, he])

theorem lookupA_append {α : Type} (k : String) (l1 l2 : List (String × α)) :
    lookupA k (l1 ++ l2) =
      match lookupA k l1 with
      | some v => some v
      | none => lookupA k l2 := by
  induction l1 with
  | nil => simp [lookupA]
  | cons p ps ih =>
    by_cases hp : p.1 = k <;> simp [lookupA, hp, ih]

theorem keysA_filter_sublist {α : Type} (pred : String × α → Bool)
    (l : List (String × α)) : List.Sublist (keysA (l.filter pred)) (keysA l) := by
  induction l with
  | nil => simp [keysA_nil]
  | cons p ps ih =>
    by_cases hp : pred p
    · rw [List.filter_cons_of_pos hp, keysA_cons, keysA_cons]
      exact List.Sublist.cons₂ _ ih
    · rw [List.filter_cons_of_neg (by simpa using hp), keysA_cons]
      exact List.Sublist.cons _ ih

theorem not_mem_keysA_filter {α : Type} {k : String} {l : List (String × α)}
    (pred : String × α → Bool) (h : k ∉ keysA l) : k ∉ keysA (l.filter pred) :=
  fun hmem => h ((keysA_filter_sublist pred l).subset hmem)

/-- With duplicate-free keys, an entry the filter drops is absent from the
filtered map. -/
theorem lookupA_filter_of_dropped {α : Type} {k : String} {v : α}
    {l : List (String × α)} (pred : String × α → Bool)
    (hnd : (keysA l).Nodup) (hlk : lookupA k l = some v)
    (hp : pred (k, v) = false) : lookupA k (l.filter pred) = none := by
  obtain ⟨l1, l2, rfl, h1, h2⟩ := lookupA_decomp hnd hlk
  rw [List.filter_append, List.filter_cons_of_neg (by simpa using hp), lookupA_append,
    lookupA_eq_none_of_not_mem (not_mem_keysA_filter pred h1)]
  exact lookupA_eq_none_of_not_mem (not_mem_keysA_filter pred h2)

/-- The idle-removal phase of the sweep leaves every identity's violation
tally unchanged or (when the entry is dropped) reads it as `0`. -/
theorem cleanup_base_violations (config : DdosProtectionConfig) (now : Nat)
    (st : ServiceState) (hnd : (keysA st.ip_states).Nodup) (q : String) :
    violationsOf
        { st with
            ip_states :=
              st.ip_states.filter fun p => ! Service.shouldRemove config now p.2 }
        q = violationsOf st q ∨
    violationsOf
        { st with
            ip_states :=
              st.ip_states.filter fun p => ! Service.shouldRemove config now p.2 }
        q = 0 := by
  cases hlq : lookupA q st.ip_states with
  | none =>
    left
    rw [violationsOf, violationsOf, hlq]
    rw [show lookupA q (st.ip_states.filter fun p => ! Service.shouldRemove config now p.2)
        = none from lookupA_filter_of_none _ hlq]
  | some v =>
    by_cases hp : (! Service.shouldRemove config now v) = true
    · left
      rw [violationsOf, violationsOf, hlq]
      rw [show lookupA q (st.ip_states.filter fun p => ! Service.shouldRemove config now p.2)
          = some v from lookupA_filter_of_some _ hnd hlq hp]
    · right
      rw [violationsOf]
      rw [show lookupA q (st.ip_states.filter fun p => ! Service.shouldRemove config now p.2)
          = none from lookupA_filter_of_dropped _ hnd hlq (by simpa using hp)]
      rfl

/-- The sweep iteration on an entry whose snapshot holds an elapsed block is
the state of the `unblock_ip` attempt. -/
theorem cleanupStep_eq_of_expired (client : CloudflareClientModel) (now : Nat)
    (acc : ServiceState) (p : String × IpState) (bu : Nat)
    (hbu : p.2.blocked_until = some bu) (hle : bu ≤ now) :
    Service.cleanupStep client now acc p = (Service.unblock_ip client acc p.1).1 := by
  simp [Service.cleanupStep, hbu, hle]

/-- The sweep iteration skips an entry whose block has not yet elapsed. -/
theorem cleanupStep_eq_of_not_expired (client : CloudflareClientModel) (now : Nat)
    (acc : ServiceState) (p : String × IpState) (bu : Nat)
    (hbu : p.2.blocked_until = some bu) (hle : ¬ bu ≤ now) :
    Service.cleanupStep client now acc p = acc := by
  simp [Service.cleanupStep, hbu, hle]

/-- The sweep iteration skips an entry that is not blocked. -/
theorem cleanupStep_eq_of_none (client : CloudflareClientModel) (now : Nat)
    (acc : ServiceState) (p : String × IpState)
    (hbu : p.2.blocked_until = none) :
    Service.cleanupStep client now acc p = acc := by
  simp [Service.cleanupStep, hbu]

/-- One sweep iteration leaves a violation tally unchanged or clears it to
`0` (through its `unblock_ip` call). -/
theorem cleanupStep_violations (client : CloudflareClientModel) (now : Nat)
    (acc : ServiceState) (p : String × IpState) (q : String) :
    violationsOf (Service.cleanupStep client now acc p) q = violationsOf acc q ∨
    violationsOf (Service.cleanupStep client now acc p) q = 0 := by
  cases hbu : p.2.blocked_until with
  | none =>
    rw [cleanupStep_eq_of_none client now acc p hbu]
    exact .inl rfl
  | some bu =>
    by_cases hle : bu ≤ now
    · rw [cleanupStep_eq_of_expired client now acc p bu hbu hle]
      rcases service_unblock_cases client acc p.1 with ⟨e, he⟩ | he <;> rw [he]
      · exact .inl rfl
      · by_cases hq : q = p.1
        · right
          subst hq
          rw [violationsOf, lookupA_updateA_self]
          cases lookupA p.1 acc.ip_states <;> rfl
        · left
          rw [violationsOf, violationsOf, lookupA_updateA_ne hq]
    · rw [cleanupStep_eq_of_not_expired client now acc p bu hbu hle]
      exact .inl rfl

theorem cleanup_fold_violations (client : CloudflareClientModel) (now : Nat)
    (l : List (String × IpState)) (acc : ServiceState) (q : String) (base : Nat)
    (h : violationsOf acc q = base ∨ violationsOf acc q = 0) :
    violationsOf (List.foldl (Service.cleanupStep client now) acc l) q = base ∨
    violationsOf (List.foldl (Service.cleanupStep client now) acc l) q = 0 := by
  induction l generalizing acc with
  | nil => simpa using h
  | cons p ps ih =>
    rw [List.foldl_cons]
    apply ih
    rcases cleanupStep_violations client now acc p q with h1 | h1
    · rw [h1]; exact h
    · exact .inr h1

/-- C6: across all operations, `violations` increases (by exactly one) only in
a `process_request` whose incremented window count exceeds the per-window
limit; it is set to `0` by a successful explicit unblock; no other operation
changes it — a blocked request leaves the state untouched, `block_ip`
preserves every tally, a failed unblock leaves the map untouched, and the
sweep leaves every identity's tally unchanged or cleared to `0` through its
unblock calls (`get_ip_state` is a pure read: its type returns no state). -/
theorem c6_violations_invariant (client : CloudflareClientModel)
    (config : DdosProtectionConfig) (st : ServiceState) (ip : String) (now : Nat)
    (q : String) :
    (Service.is_ip_blocked st ip now = false →
      violationsOf (Service.process_request client config st ip now).1 ip =
        (if config.max_requests_per_ip < Service.windowedCount config st ip now + 1
         then violationsOf st ip + 1 else violationsOf st ip)) ∧
    (q ≠ ip →
      violationsOf (Service.process_request client config st ip now).1 q =
        violationsOf st q) ∧
    (Service.is_ip_blocked st ip now = true →
      (Service.process_request client config st ip now).1 = st) ∧
    violationsOf (Service.block_ip client config st ip now).1 q = violationsOf st q ∧
    ((Service.unblock_ip client st ip).2 = .ok () →
      violationsOf (Service.unblock_ip client st ip).1 ip = 0) ∧
    (q ≠ ip →
      violationsOf (Service.unblock_ip client st ip).1 q = violationsOf st q) ∧
    (∀ e, (Service.unblock_ip client st ip).2 = .error e →
      (Service.unblock_ip client st ip).1.ip_states = st.ip_states) ∧
    ((keysA st.ip_states).Nodup →
      violationsOf (Service.cleanup_expired_states client config st now) q =
          violationsOf st q ∨
        violationsOf (Service.cleanup_expired_states client config st now) q = 0) := by
  refine ⟨fun hnb => ?_, fun hq => ?_, fun hb => ?_, ?_, fun hok => ?_, fun hq => ?_,
    fun e he => ?_, fun hnd => ?_⟩
  · have h := (process_request_entry client config st ip now hnb).2
    rw [violationsOf, h, Option.getD_some]
    have hv : ((lookupA ip st.ip_states).getD (IpState.fresh now)).violations =
        violationsOf st ip := by
      rw [violationsOf]
      cases lookupA ip st.ip_states <;> rfl
    rw [hv]
  · rw [violationsOf, violationsOf, process_request_lookup_ne _ _ _ _ _ _ hq]
  · rw [Service.process_request, if_pos hb]
  · rw [violationsOf, violationsOf, blockip_lookup_violations]
  · rcases service_unblock_cases client st ip with ⟨e, he⟩ | he
    · rw [he] at hok
      cases hok
    · rw [he, violationsOf, lookupA_updateA_self]
      cases lookupA ip st.ip_states <;> rfl
  · rcases service_unblock_cases client st ip with ⟨e2, he⟩ | he
    · rw [he]
    · rw [he, violationsOf, violationsOf, lookupA_updateA_ne hq]
  · rcases service_unblock_cases client st ip with ⟨e2, he2⟩ | he2
    · rw [he2]
    · rw [he2] at he
      simp at he
  · simp only [Service.cleanup_expired_states]
    exact cleanup_fold_violations client now _ _ q (violationsOf st q)
      (cleanup_base_violations config now st hnd q)

def c6BlockedState : ServiceState :=
  { rules :=
      { RulesManagerState.empty with
          ip_rule_ids := [("198.51.100.4", "fw-rule-1")] },
    ip_states :=
      [("198.51.100.4",
        { request_count := 3, window_start := 95, violations := 2,
          blocked_until := some 90 })] }

/-- Witness for C6: a violating request raises the tally from 0 to 1, and a
successful unblock clears a tally of 2 to 0. -/
theorem c6_violations_invariant_witness :
    violationsOf (Service.process_request rejectingClient c9Config c9State
      "203.0.113.7" 0).1 "203.0.113.7" = 1 ∧
    violationsOf (Service.unblock_ip okClient c6BlockedState "198.51.100.4").1
      "198.51.100.4" = 0 := by
  constructor
  · have h := (c6_violations_invariant rejectingClient c9Config c9State
      "203.0.113.7" 0 "other").1 (by decide)
    rw [h]
    decide
  · exact (c6_violations_invariant okClient c9Config c6BlockedState
      "198.51.100.4" 0 "other").2.2.2.2.1 rfl

/-- A sweep iteration on an entry keyed by a different identity preserves the
identity's map entry, its cached rule id, and duplicate-freedom of the rule
cache keys. -/
theorem cleanupStep_preserves_other (client : CloudflareClientModel) (now : Nat)
    (acc : ServiceState) (p : String × IpState) (ip : String) (hp : p.1 ≠ ip) :
    lookupA ip (Service.cleanupStep client now acc p).ip_states =
      lookupA ip acc.ip_states ∧
    lookupA ip (Service.cleanupStep client now acc p).rules.ip_rule_ids =
      lookupA ip acc.rules.ip_rule_ids ∧
    ((keysA acc.rules.ip_rule_ids).Nodup →
      (keysA (Service.cleanupStep client now acc p).rules.ip_rule_ids).Nodup) := by
  cases hbu : p.2.blocked_until with
  | none =>
    rw [cleanupStep_eq_of_none client now acc p hbu]
    exact ⟨rfl, rfl, fun h => h⟩
  | some bu =>
    by_cases hle : bu ≤ now
    · rw [cleanupStep_eq_of_expired client now acc p bu hbu hle]
      rcases service_unblock_cases client acc p.1 with ⟨e, he⟩ | he <;> rw [he]
      · exact ⟨rfl, rfl, fun h => h⟩
      · exact ⟨lookupA_updateA_ne (Ne.symm hp) _ _,
          lookupA_removeA_ne (Ne.symm hp) _, fun h => nodup_keysA_removeA h⟩
    · rw [cleanupStep_eq_of_not_expired client now acc p bu hbu hle]
      exact ⟨rfl, rfl, fun h => h⟩

/-- Once an identity's block has been lifted (entry value fixed, rule cache
clear), no later sweep iteration changes that: a repeated unblock attempt
fails on the empty cache and leaves everything as is. -/
theorem cleanupStep_post (client : CloudflareClientModel) (now : Nat)
    (acc : ServiceState) (p : String × IpState) (ip : String) (v : IpState)
    (h1 : lookupA ip acc.ip_states = some v)
    (h2 : lookupA ip acc.rules.ip_rule_ids = none) :
    lookupA ip (Service.cleanupStep client now acc p).ip_states = some v ∧
    lookupA ip (Service.cleanupStep client now acc p).rules.ip_rule_ids = none := by
  by_cases hp : p.1 = ip
  · cases hbu : p.2.blocked_until with
    | none =>
      rw [cleanupStep_eq_of_none client now acc p hbu]
      exact ⟨h1, h2⟩
    | some bu =>
      by_cases hle : bu ≤ now
      · rw [cleanupStep_eq_of_expired client now acc p bu hbu hle]
        have hr : RulesManager.unblock_ip client p.1 acc.rules =
            (acc.rules, .error (.Cloudflare ("No rule found for IP " ++ p.1))) := by
          rw [RulesManager.unblock_ip, hp, h2]
        have hu : Service.unblock_ip client acc p.1 =
            (acc, .error (ServiceError.ofDdos
              (.Cloudflare ("No rule found for IP " ++ p.1)))) := by
          simp [Service.unblock_ip, hr, ServiceError.ofDdos]
        rw [hu]
        exact ⟨h1, h2⟩
      · rw [cleanupStep_eq_of_not_expired client now acc p bu hbu hle]
        exact ⟨h1, h2⟩
  · obtain ⟨g1, g2, _⟩ := cleanupStep_preserves_other client now acc p ip hp
    exact ⟨g1.trans h1, g2.trans h2⟩

/-- The sweep iteration that meets the expired snapshot of a blocked identity
whose rule id is cached and whose remote deletion succeeds: the entry's
`blocked_until` is cleared and `violations` reset, and the rule-id cache entry
is removed. -/
theorem cleanupStep_hit (client : CloudflareClientModel) (now : Nat)
    (acc : ServiceState) (ip : String) (snap s0 : IpState) (bu : Nat) (rid : String)
    (hsnap : snap.blocked_until = some bu) (hle : bu ≤ now)
    (h1 : lookupA ip acc.ip_states = some s0)
    (h2 : lookupA ip acc.rules.ip_rule_ids = some rid)
    (hnd : (keysA acc.rules.ip_rule_ids).Nodup)
    (hdel : client.delete_rule rid "firewall" = .ok ()) :
    lookupA ip (Service.cleanupStep client now acc (ip, snap)).ip_states =
      some { s0 with blocked_until := none, violations := 0 } ∧
    lookupA ip (Service.cleanupStep client now acc (ip, snap)).rules.ip_rule_ids =
      none := by
  rw [show Service.cleanupStep client now acc (ip, snap) =
      (Service.unblock_ip client acc ip).1 from
    cleanupStep_eq_of_expired client now acc (ip, snap) bu hsnap hle]
  have hr : RulesManager.unblock_ip client ip acc.rules =
      ({ acc.rules with ip_rule_ids := removeA ip acc.rules.ip_rule_ids }, .ok ()) := by
    simp [RulesManager.unblock_ip, h2, hdel]
  have hu : Service.unblock_ip client acc ip =
      ({ rules := { acc.rules with ip_rule_ids := removeA ip acc.rules.ip_rule_ids },
         ip_states := updateA ip
           (fun s => { s with blocked_until := none, violations := 0 })
           acc.ip_states },
       .ok ()) := by
    simp [Service.unblock_ip, hr]
  rw [hu]
  constructor
  · rw [lookupA_updateA_self, h1]
    rfl
  · exact lookupA_removeA_self hnd

theorem cleanup_fold_post (client : CloudflareClientModel) (now : Nat)
    (l : List (String × IpState)) (acc : ServiceState) (ip : String) (v : IpState)
    (h1 : lookupA ip acc.ip_states = some v)
    (h2 : lookupA ip acc.rules.ip_rule_ids = none) :
    lookupA ip (List.foldl (Service.cleanupStep client now) acc l).ip_states =
      some v ∧
    lookupA ip (List.foldl (Service.cleanupStep client now) acc l).rules.ip_rule_ids =
      none := by
  induction l generalizing acc with
  | nil => exact ⟨h1, h2⟩
  | cons p ps ih =>
    rw [List.foldl_cons]
    obtain ⟨g1, g2⟩ := cleanupStep_post client now acc p ip v h1 h2
    exact ih _ g1 g2

theorem cleanup_fold_pre (client : CloudflareClientModel) (now : Nat)
    (l : List (String × IpState)) (acc : ServiceState) (ip : String) (s0 : IpState)
    (rid : String) (hl : ∀ p ∈ l, (p : String × IpState).1 ≠ ip)
    (h1 : lookupA ip acc.ip_states = some s0)
    (h2 : lookupA ip acc.rules.ip_rule_ids = some rid)
    (h3 : (keysA acc.rules.ip_rule_ids).Nodup) :
    lookupA ip (List.foldl (Service.cleanupStep client now) acc l).ip_states =
      some s0 ∧
    lookupA ip (List.foldl (Service.cleanupStep client now) acc l).rules.ip_rule_ids =
      some rid ∧
    (keysA (List.foldl
      (Service.cleanupStep client now) acc l).rules.ip_rule_ids).Nodup := by
  induction l generalizing acc with
  | nil => exact ⟨h1, h2, h3⟩
  | cons p ps ih =>
    rw [List.foldl_cons]
    obtain ⟨g1, g2, g3⟩ := cleanupStep_preserves_other client now acc p ip
      (hl p (List.mem_cons_self p ps))
    exact ih _ (fun q hq => hl q (List.mem_cons_of_mem p hq)) (g1.trans h1)
      (g2.trans h2) (g3 h3)

/-- C7: for an identity whose `blocked_until` has elapsed and whose rule id is
cached, a sweep run lifts the block when the enforcer's deletion succeeds:
afterwards the entry's `violations` is `0`, `blocked_until` is cleared, the
rule cache no longer holds the identity, and `is_ip_blocked` answers false at
every instant.  When the deletion fails, the failure is absorbed by the sweep
(whose type returns a state, never an error): the entry and the cached rule id
survive unchanged, so the next sweep retries. -/
theorem c7_sweep_lifts_expired_blocks (client : CloudflareClientModel)
    (config : DdosProtectionConfig) (st : ServiceState) (now : Nat) (ip : String)
    (s : IpState) (bu : Nat) (rid : String)
    (hwf1 : (keysA st.ip_states).Nodup)
    (hwf2 : (keysA st.rules.ip_rule_ids).Nodup)
    (hlk : lookupA ip st.ip_states = some s)
    (hbu : s.blocked_until = some bu)
    (hexp : bu ≤ now)
    (hrid : lookupA ip st.rules.ip_rule_ids = some rid) :
    (client.delete_rule rid "firewall" = .ok () →
      lookupA ip (Service.cleanup_expired_states client config st now).ip_states =
        some { s with blocked_until := none, violations := 0 } ∧
      lookupA ip
          (Service.cleanup_expired_states client config st now).rules.ip_rule_ids =
        none ∧
      ∀ t, Service.is_ip_blocked (Service.cleanup_expired_states client config st now)
        ip t = false) ∧
    (∀ e, client.delete_rule rid "firewall" = .error e →
      lookupA ip (Service.cleanup_expired_states client config st now).ip_states =
        some s ∧
      lookupA ip
          (Service.cleanup_expired_states client config st now).rules.ip_rule_ids =
        some rid) := by
  have hpred : (! Service.shouldRemove config now s) = true := by
    simp [Service.shouldRemove, hbu]
  have hkeptlk : lookupA ip
      (st.ip_states.filter fun p => ! Service.shouldRemove config now p.2) = some s :=
    lookupA_filter_of_some _ hwf1 hlk hpred
  have hkeptnd : (keysA (st.ip_states.filter
      fun p => ! Service.shouldRemove config now p.2)).Nodup :=
    List.Nodup.sublist (keysA_filter_sublist _ _) hwf1
  obtain ⟨l1, l2, hsplit, hni1, hni2⟩ := lookupA_decomp hkeptnd hkeptlk
  have hne1 : ∀ p ∈ l1, (p : String × IpState).1 ≠ ip := by
    intro p hp hcon
    exact hni1 (hcon ▸ List.mem_map_of_mem Prod.fst hp)
  have hne2 : ∀ p ∈ l2, (p : String × IpState).1 ≠ ip := by
    intro p hp hcon
    exact hni2 (hcon ▸ List.mem_map_of_mem Prod.fst hp)
  have hcleanup : Service.cleanup_expired_states client config st now =
      List.foldl (Service.cleanupStep client now)
        { st with
            ip_states :=
              st.ip_states.filter fun p => ! Service.shouldRemove config now p.2 }
        (st.ip_states.filter fun p => ! Service.shouldRemove config now p.2) := rfl
  rw [hcleanup, hsplit, List.foldl_append, List.foldl_cons]
  rw [hsplit] at hkeptlk
  obtain ⟨p1, p2, p3⟩ := cleanup_fold_pre client now l1
    { st with ip_states := l1 ++ (ip, s) :: l2 } ip s rid hne1 hkeptlk hrid hwf2
  constructor
  · intro hdel
    obtain ⟨q1, q2⟩ := cleanupStep_hit client now
      (List.foldl (Service.cleanupStep client now)
        { st with ip_states := l1 ++ (ip, s) :: l2 } l1)
      ip s s bu rid hbu hexp p1 p2 p3 hdel
    obtain ⟨r1, r2⟩ := cleanup_fold_post client now l2 _ ip
      { s with blocked_until := none, violations := 0 } q1 q2
    refine ⟨r1, r2, fun t => ?_⟩
    rw [Service.is_ip_blocked]
    simp [RulesManager.is_ip_blocked, r2, r1]
  · intro e hdel
    have hu : Service.unblock_ip client
        (List.foldl (Service.cleanupStep client now)
          { st with ip_states := l1 ++ (ip, s) :: l2 } l1) ip =
        (List.foldl (Service.cleanupStep client now)
          { st with ip_states := l1 ++ (ip, s) :: l2 } l1,
         .error (ServiceError.ofDdos (.Cloudflare e))) := by
      have hr : RulesManager.unblock_ip client ip
          (List.foldl (Service.cleanupStep client now)
            { st with ip_states := l1 ++ (ip, s) :: l2 } l1).rules =
          ((List.foldl (Service.cleanupStep client now)
            { st with ip_states := l1 ++ (ip, s) :: l2 } l1).rules,
           .error (.Cloudflare e)) := by
        simp [RulesManager.unblock_ip, p2, hdel]
      simp [Service.unblock_ip, hr, ServiceError.ofDdos]
    have hstep : Service.cleanupStep client now
        (List.foldl (Service.cleanupStep client now)
          { st with ip_states := l1 ++ (ip, s) :: l2 } l1) (ip, s) =
        List.foldl (Service.cleanupStep client now)
          { st with ip_states := l1 ++ (ip, s) :: l2 } l1 := by
      rw [show Service.cleanupStep client now
          (List.foldl (Service.cleanupStep client now)
            { st with ip_states := l1 ++ (ip, s) :: l2 } l1) (ip, s) =
          (Service.unblock_ip client
            (List.foldl (Service.cleanupStep client now)
              { st with ip_states := l1 ++ (ip, s) :: l2 } l1) ip).1 from
        cleanupStep_eq_of_expired client now _ (ip, s) bu hbu hexp, hu]
    rw [hstep]
    obtain ⟨r1, r2, _⟩ := cleanup_fold_pre client now l2
      (List.foldl (Service.cleanupStep client now)
        { st with ip_states := l1 ++ (ip, s) :: l2 } l1) ip s rid hne2 p1 p2 p3
    exact ⟨r1, r2⟩

def c7State : ServiceState :=
  { rules :=
      { RulesManagerState.empty with
          ip_rule_ids := [("198.51.100.7", "fw-rule-9")] },
    ip_states :=
      [("198.51.100.7",
        { request_count := 4, window_start := 80, violations := 2,
          blocked_until := some 90 })] }

/-- Witness for C7: the sweep at instant 100 lifts the block that expired at
90 when deletion succeeds (violations reset, not blocked any more), and keeps
the entry and rule id for retry when the enforcer is offline. -/
theorem c7_sweep_lifts_expired_blocks_witness :
    lookupA "198.51.100.7"
        (Service.cleanup_expired_states okClient c9Config c7State 100).ip_states =
      some { request_count := 4, window_start := 80, violations := 0,
             blocked_until := none } ∧
    Service.is_ip_blocked
      (Service.cleanup_expired_states okClient c9Config c7State 100)
      "198.51.100.7" 100 = false ∧
    lookupA "198.51.100.7"
        (Service.cleanup_expired_states offlineClient c9Config c7State 100).ip_states =
      some { request_count := 4, window_start := 80, violations := 2,
             blocked_until := some 90 } := by
  have h1 := c7_sweep_lifts_expired_blocks okClient c9Config c7State 100
    "198.51.100.7"
    { request_count := 4, window_start := 80, violations := 2,
      blocked_until := some 90 }
    90 "fw-rule-9" (by decide) (by decide) rfl rfl (by decide) rfl
  have h2 := c7_sweep_lifts_expired_blocks offlineClient c9Config c7State 100
    "198.51.100.7"
    { request_count := 4, window_start := 80, violations := 2,
      blocked_until := some 90 }
    90 "fw-rule-9" (by decide) (by decide) rfl rfl (by decide) rfl
  exact ⟨(h1.1 rfl).1, (h1.1 rfl).2.2 100, (h2.2 "connection timed out" rfl).1⟩

end Ddos
